import Mathlib

/-!
Formal model of the core logic of `streamlit_app.py`: the in-memory event
store (add, chronological listing, filter by calendar day, delete by sorted
position, clear) and the rule-based productivity scorer.

Modelling conventions, each noted again at the definition it concerns:
Python numbers are modelled as exact rationals; Python `str.strip()` as
dropping `Char.isWhitespace` characters on both ends; a calendar date as a
natural number ordinal (ISO-8601 date strings are in order-preserving
bijection with dates) and a time of day as minutes since midnight (the UI
time widget supplies minute precision, and `strftime("%H:%M")` /
`fromisoformat` round-trip such values exactly); a `datetime` as the pair
(date, time).  The pandas frame built by `events_df` is modelled as the
list of events it holds, row order included.
-/

namespace StreamlitApp

/-- Whitespace test used by Python `str.strip()`, modelled by
`Char.isWhitespace` (Python additionally strips some rarer Unicode space
characters; none of the claims depend on those). -/
def wsChar (c : Char) : Bool := c.isWhitespace

/-- Python `s.strip()`: remove leading and trailing whitespace characters. -/
def pyStrip (s : String) : String :=
  String.mk ((s.data.dropWhile wsChar).rdropWhile wsChar)

/-- Source `clamp(x, lo=0, hi=100) = max(lo, min(hi, x))` (line 10).  The
source only ever calls it at the default bounds `lo = 0`, `hi = 100`. -/
def clamp (x lo hi : ℤ) : ℤ := max lo (min hi x)

/-- Python built-in `round` at one argument: round half to even. -/
def pyRound (q : ℚ) : ℤ :=
  let n : ℤ := ⌊q⌋
  if q - n < 1/2 then n
  else if 1/2 < q - n then n + 1
  else if n % 2 = 0 then n else n + 1

/-- Source `predict_productivity` (lines 13-26): the accumulated linear
score, then `clamp(int(round(score)))`.  `int` on the result of one-argument
`round` is the identity. -/
def predict_productivity (sleep_hours focus_hours workload_level exercise_mins : ℚ) : ℤ :=
  let score : ℚ := 50
  let score := score + (sleep_hours - 6) * 6
  let score := score + (focus_hours - 3) * 5
  let score := score - (workload_level - 3) * 7
  let score := score + (exercise_mins / 10) * 1.5
  clamp (pyRound score) 0 100

/-- Scoring formula exactly as the specification words it: one closed
expression, rounded first and clamped to [0, 100] afterwards.  Written for
comparison against `predict_productivity`, which is the source's
accumulator-style computation. -/
def specScore (sleepHours focusHours workloadLevel exerciseMinutes : ℚ) : ℤ :=
  clamp (pyRound (50 + (sleepHours - 6) * 6 + (focusHours - 3) * 5
      - (workloadLevel - 3) * 7 + (exerciseMinutes / 10) * 1.5)) 0 100

/-- Source tip generation (lines 193-203): four independent threshold
checks appending to an accumulator in fixed order, then the fallback tip
when none fired.  The fallback string contains the right single quotation
mark U+2019, exactly as in the source. -/
def tips (sleep_hours focus_hours workload exercise : ℚ) : List String :=
  let tips : List String := []
  let tips := if sleep_hours < 6.5 then tips ++ ["Sleep at least 7 hours."] else tips
  let tips := if focus_hours < 3 then tips ++ ["Plan 1–2 deep work blocks (45–60 mins)."] else tips
  let tips := if workload > 3 then tips ++ ["Reduce tasks: pick top 3 priorities only."] else tips
  let tips := if exercise < 15 then tips ++ ["Add 15–20 mins walk or workout."] else tips
  if tips = [] then ["Keep the same routine. You’re on track!"] else tips

/-- Tip sequence as the specification words it: the concatenation, in the
fixed listed order, of the singleton tips whose checks fire, and the single
fallback tip when none fires.  The fallback string here carries the same
U+2019 character the source emits. -/
def tipsSpec (sleepHours focusHours workloadLevel exerciseMinutes : ℚ) : List String :=
  let fired : List String :=
    (if sleepHours < 6.5 then ["Sleep at least 7 hours."] else [])
    ++ (if focusHours < 3 then ["Plan 1–2 deep work blocks (45–60 mins)."] else [])
    ++ (if workloadLevel > 3 then ["Reduce tasks: pick top 3 priorities only."] else [])
    ++ (if exerciseMinutes < 15 then ["Add 15–20 mins walk or workout."] else [])
  if fired = [] then ["Keep the same routine. You’re on track!"] else fired

/-- One stored event: the dict appended by `add_event` (lines 34-41).
`date` is the ordinal of the calendar date (the stored ISO string, which
is in order-preserving bijection with it), `time` the minutes since
midnight (the stored `"HH:MM"` string), `sortDT` the `SortDT` datetime. -/
structure Event where
  title : String
  date : ℕ
  time : ℕ
  duration : ℤ
  notes : String
  sortDT : ℕ × ℕ
deriving DecidableEq

/-- Python `datetime.combine(event_date, event_time)`: a datetime is the
pair of its date and its time of day. -/
def datetimeCombine (d t : ℕ) : ℕ × ℕ := (d, t)

/-- Source `add_event` (lines 32-41): append one dict with stripped title
and notes, the date and time as given, `int(duration_mins)` (identity on an
integer input) and `SortDT = datetime.combine(event_date, event_time)`. -/
def add_event (evs : List Event) (title : String) (event_date event_time : ℕ)
    (duration_mins : ℤ) (notes : String) : List Event :=
  evs ++ [⟨pyStrip title, event_date, event_time, duration_mins, pyStrip notes,
           datetimeCombine event_date event_time⟩]

/-- Chronological comparison on `SortDT` values used by
`df.sort_values("SortDT")`: datetimes compare by date, then time. -/
def sortLE (a b : Event) : Prop :=
  a.sortDT.1 < b.sortDT.1 ∨ (a.sortDT.1 = b.sortDT.1 ∧ a.sortDT.2 ≤ b.sortDT.2)

instance : DecidableRel sortLE := fun a b =>
  inferInstanceAs (Decidable (a.sortDT.1 < b.sortDT.1 ∨
    (a.sortDT.1 = b.sortDT.1 ∧ a.sortDT.2 ≤ b.sortDT.2)))

/-- Source `events_df` (lines 43-48): the frame of all stored events sorted
by `SortDT` (empty store giving the empty frame falls out of sorting the
empty list).  `sort_values` defaults to an unstable sort kind, so its order
among equal `SortDT` values is algorithm-dependent; the model fixes one
concrete sort (insertion sort).  Dropping the `SortDT` column and
`reset_index` are presentation details: the delete handler models the
dropped column by re-deriving `SortDT` from the stored date and time. -/
def events_df (evs : List Event) : List Event :=
  evs.insertionSort sortLE

/-- Source day filter (lines 99-103): the sorted frame restricted to rows
whose `Date` equals the chosen day, except that an empty frame is passed
through unfiltered. -/
def df_day (evs : List Event) (d : ℕ) : List Event :=
  if (events_df evs).isEmpty then events_df evs
  else (events_df evs).filter (fun e => e.date == d)

/-- One row of the rebuild loop in the delete handler (lines 150-159):
title, date, time, duration and notes are copied from the displayed row,
and `SortDT` is re-derived as
`datetime.fromisoformat(Date + "T" + Time + ":00")`, i.e. the datetime
combining the stored date and time (at minute precision the round-trip
through the strings is exact). -/
def rebuildRow (e : Event) : Event :=
  ⟨e.title, e.date, e.time, e.duration, e.notes, datetimeCombine e.date e.time⟩

/-- Error kinds of the specification's taxonomy: `ValidationError` for an
empty title on add, `RangeError` for an out-of-range delete index. -/
inductive StoreError where
  | validationError
  | rangeError
deriving DecidableEq

/-- Source add handler (lines 82-87): reject when the stripped title is
empty (reported as `st.error`, the spec's `ValidationError`), otherwise
call `add_event`.  An error return models the handler path that leaves
`st.session_state.events` untouched. -/
def add (evs : List Event) (title : String) (d t : ℕ) (dur : ℤ)
    (notes : String) : Except StoreError (List Event) :=
  if pyStrip title = "" then .error StoreError.validationError
  else .ok (add_event evs title d t dur notes)

/-- Source delete handler (lines 133-161): the index comes from a numeric
input bounded to `[0, len(df)-1]` (the spec's `RangeError` report for an
index outside that range), the row at that position of the displayed sorted
frame is dropped, and the store is rebuilt from the remaining rows with
`SortDT` re-derived.  An error return models the handler being unreachable
for such an index, the store left untouched. -/
def deleteAt (evs : List Event) (i : ℤ) : Except StoreError (List Event) :=
  if 0 ≤ i ∧ i < ((events_df evs).length : ℤ) then
    .ok (((events_df evs).eraseIdx i.toNat).map rebuildRow)
  else .error StoreError.rangeError

/-- Source clear handler (lines 89-91): `st.session_state.events = []`. -/
def clearAll : List Event := []

/-- Number of stored events, the spec's `count()`. -/
def count (evs : List Event) : ℕ := evs.length

/-- Store states reachable through the handlers from the empty initial
state (`init_state`, lines 28-30): successful adds, successful deletes and
clears. -/
inductive Reachable : List Event → Prop where
  | init : Reachable []
  | push (evs : List Event) (title : String) (d t : ℕ) (dur : ℤ) (notes : String)
      (evs' : List Event) : Reachable evs →
      add evs title d t dur notes = .ok evs' → Reachable evs'
  | del (evs : List Event) (i : ℤ) (evs' : List Event) : Reachable evs →
      deleteAt evs i = .ok evs' → Reachable evs'
  | wipe (evs : List Event) : Reachable evs → Reachable clearAll

/-- Sort-key invariant: every stored event's `SortDT` is the datetime
combining its stored date and time fields. -/
def Inv (evs : List Event) : Prop :=
  ∀ e ∈ evs, e.sortDT = datetimeCombine e.date e.time

/-- A string with no leading and no trailing whitespace character. -/
def NoEdgeWS (s : String) : Prop :=
  (∀ c, s.data.head? = some c → wsChar c = false) ∧
  (∀ c, s.data.getLast? = some c → wsChar c = false)

/-- Trimming invariant: every stored event's title and notes carry no
leading or trailing whitespace. -/
def TrimmedInv (evs : List Event) : Prop :=
  ∀ e ∈ evs, NoEdgeWS e.title ∧ NoEdgeWS e.notes

instance (evs : List Event) : Decidable (Inv evs) :=
  inferInstanceAs (Decidable (∀ e ∈ evs, e.sortDT = datetimeCombine e.date e.time))

theorem events_df_perm (evs : List Event) : List.Perm (events_df evs) evs :=
  List.perm_insertionSort sortLE evs

theorem length_events_df (evs : List Event) : (events_df evs).length = evs.length :=
  (events_df_perm evs).length_eq

theorem head?_dropWhile_false {p : Char → Bool} {l : List Char} {c : Char}
    (h : (l.dropWhile p).head? = some c) : p c = false := by
  have hne : l.dropWhile p ≠ [] := by
    intro hn; rw [hn] at h; exact (Option.some_ne_none c h.symm).elim
  have hnot := List.head_dropWhile_not p l hne
  rw [List.head?_eq_head hne] at h
  simp_all

theorem getLast?_rdropWhile_false {p : Char → Bool} {l : List Char} {c : Char}
    (h : (l.rdropWhile p).getLast? = some c) : p c = false := by
  have hne : l.rdropWhile p ≠ [] := by
    intro hn; rw [hn] at h; exact (Option.some_ne_none c h.symm).elim
  have hnot := List.rdropWhile_last_not p l hne
  rw [List.getLast?_eq_getLast _ hne] at h
  simp_all

theorem pyStrip_noEdge (s : String) : NoEdgeWS (pyStrip s) := by
  have hdata : (pyStrip s).data = (s.data.dropWhile wsChar).rdropWhile wsChar := rfl
  constructor
  · intro c hc
    rw [hdata] at hc
    obtain ⟨r, hr⟩ := List.rdropWhile_prefix wsChar (s.data.dropWhile wsChar)
    have hne : (s.data.dropWhile wsChar).rdropWhile wsChar ≠ [] := by
      intro hn; rw [hn] at hc; exact (Option.some_ne_none c hc.symm).elim
    have hu : (s.data.dropWhile wsChar).head? = some c := by
      rw [← hr, List.head?_append_of_ne_nil _ hne]; exact hc
    exact head?_dropWhile_false hu
  · intro c hc
    rw [hdata] at hc
    exact getLast?_rdropWhile_false hc

theorem rebuildRow_eq_self {e : Event} (h : e.sortDT = datetimeCombine e.date e.time) :
    rebuildRow e = e := by
  cases e
  simp_all [rebuildRow, datetimeCombine]

theorem deleteAt_ok_mem {evs : List Event} {i : ℤ} {evs' : List Event}
    (hok : deleteAt evs i = .ok evs') :
    ∀ e' ∈ evs', ∃ e ∈ evs, e' = rebuildRow e := by
  unfold deleteAt at hok
  split at hok
  · simp only [Except.ok.injEq] at hok
    subst hok
    intro e' he'
    obtain ⟨e, he, rfl⟩ := List.mem_map.mp he'
    refine ⟨e, ?_, rfl⟩
    exact (events_df_perm evs).subset ((List.eraseIdx_sublist _ _).subset he)
  · exact absurd hok (by simp)

/-- C3: the productivity score is exactly the specification formula, the
raw linear score rounded first and clamped to [0, 100] afterwards; at the
three boundary inputs it yields 64, 0 (the rounded raw score being -15)
and 100 (the rounded raw score being 141). -/
theorem c3_predict_formula :
    (∀ s f w e : ℚ, predict_productivity s f w e = specScore s f w e)
    ∧ predict_productivity 7 4 3 20 = 64
    ∧ (pyRound (50 + ((0 : ℚ) - 6) * 6 + (0 - 3) * 5 - (5 - 3) * 7 + (0 / 10) * 1.5) = -15
        ∧ predict_productivity 0 0 5 0 = 0)
    ∧ (pyRound (50 + ((10 : ℚ) - 6) * 6 + (10 - 3) * 5 - (1 - 3) * 7 + (120 / 10) * 1.5) = 141
        ∧ predict_productivity 10 10 1 120 = 100) := by
  refine ⟨fun _ _ _ _ => rfl, ?_, ⟨?_, ?_⟩, ⟨?_, ?_⟩⟩ <;>
    norm_num [predict_productivity, pyRound, clamp]

/-- C8: within the documented input ranges (and in fact for every input)
the score is an integer in [0, 100]; integrality is by type, the bounds by
the final clamp. -/
theorem c8_score_in_range (s f w e : ℚ)
    (_hs : 0 ≤ s ∧ s ≤ 10) (_hf : 0 ≤ f ∧ f ≤ 10)
    (_hw : 1 ≤ w ∧ w ≤ 5 ∧ w.den = 1) (_he : 0 ≤ e ∧ e ≤ 120) :
    0 ≤ predict_productivity s f w e ∧ predict_productivity s f w e ≤ 100 := by
  unfold predict_productivity clamp
  exact ⟨le_max_left _ _, max_le (by norm_num) (min_le_left _ _)⟩

theorem c8_score_in_range_witness :
    0 ≤ predict_productivity 5 5 3 60 ∧ predict_productivity 5 5 3 60 ≤ 100 :=
  c8_score_in_range 5 5 3 60 (by norm_num) (by norm_num)
    ⟨by norm_num, by norm_num, rfl⟩ (by norm_num)

/-- C4 counterexample: at an input where no threshold check fires, the
source's fallback tip spells its apostrophe as the right single quotation
mark U+2019, so the output differs from the claim's string, which has an
ASCII apostrophe (written here as the escape x27). -/
theorem c4_counterexample :
    tips 7 4 3 20 = ["Keep the same routine. You’re on track!"]
    ∧ tips 7 4 3 20 ≠ ["Keep the same routine. You\x27re on track!"] := by
  constructor
  · norm_num [tips]
  · norm_num [tips]
    decide

/-- C4 (amended): the tips sequence is the concatenation, in the fixed
listed order, of the four independent threshold tips that fire, and when
none fires it is the single fallback tip, whose apostrophe is the right
single quotation mark U+2019; witnessed at an input firing all four checks
and at one firing none. -/
theorem c4_tips_order :
    (∀ s f w e : ℚ, tips s f w e = tipsSpec s f w e)
    ∧ tips 0 0 5 0 = ["Sleep at least 7 hours.", "Plan 1–2 deep work blocks (45–60 mins).",
        "Reduce tasks: pick top 3 priorities only.", "Add 15–20 mins walk or workout."]
    ∧ tips 7 4 3 20 = ["Keep the same routine. You’re on track!"] := by
  refine ⟨?_, ?_, ?_⟩
  · intro s f w e
    unfold tips tipsSpec
    split_ifs <;> simp_all
  · norm_num [tips]
    decide
  · norm_num [tips]

/-- C5 counterexample: a valid title that carries surrounding whitespace is
stored stripped, so the listed collection holds no event with the exact
input title. -/
theorem c5_counterexample :
    add ([] : List Event) " x " 1 2 60 "" = .ok (add_event [] " x " 1 2 60 "")
    ∧ (events_df (add_event [] " x " 1 2 60 "")).map Event.title = ["x"]
    ∧ ("x" : String) ≠ " x " :=
  ⟨rfl, by decide, by decide⟩

/-- C5 (amended): for a valid input (title non-empty after trimming), add
succeeds and the listed collection contains an event whose title and notes
are the stripped input strings and whose date, time and duration are
exactly those given, and the count increases by exactly 1 (both as the
number of stored events and as the number of listed rows). -/
theorem c5_add_then_list (evs : List Event) (title : String) (d t : ℕ) (dur : ℤ)
    (notes : String) (h : pyStrip title ≠ "") :
    add evs title d t dur notes = .ok (add_event evs title d t dur notes)
    ∧ (⟨pyStrip title, d, t, dur, pyStrip notes, datetimeCombine d t⟩ : Event)
        ∈ events_df (add_event evs title d t dur notes)
    ∧ count (add_event evs title d t dur notes) = count evs + 1
    ∧ (events_df (add_event evs title d t dur notes)).length = (events_df evs).length + 1 := by
  refine ⟨?_, ?_, ?_, ?_⟩
  · unfold add; rw [if_neg h]
  · refine ((events_df_perm _).mem_iff).mpr ?_
    unfold add_event; simp
  · unfold count add_event; simp
  · rw [length_events_df, length_events_df]; unfold add_event; simp

theorem c5_add_then_list_witness :
    add ([] : List Event) "Gym" 3 4 45 "bring kit" = .ok (add_event [] "Gym" 3 4 45 "bring kit")
    ∧ (⟨pyStrip "Gym", 3, 4, 45, pyStrip "bring kit", datetimeCombine 3 4⟩ : Event)
        ∈ events_df (add_event [] "Gym" 3 4 45 "bring kit")
    ∧ count (add_event ([] : List Event) "Gym" 3 4 45 "bring kit") = count [] + 1
    ∧ (events_df (add_event ([] : List Event) "Gym" 3 4 45 "bring kit")).length
        = (events_df []).length + 1 :=
  c5_add_then_list [] "Gym" 3 4 45 "bring kit" (by decide)

/-- C6: adding with a title that strips to the empty string reports the
validation error; the handler path that mutates the store is not taken, so
the store and its count are unchanged (the embedding returns no new store
on the error path). -/
theorem c6_blank_title_rejected (evs : List Event) (title : String) (d t : ℕ) (dur : ℤ)
    (notes : String) (h : pyStrip title = "") :
    add evs title d t dur notes = .error StoreError.validationError
    ∧ ∀ evs', add evs title d t dur notes ≠ .ok evs' := by
  unfold add
  rw [if_pos h]
  exact ⟨rfl, fun _ => by simp⟩

theorem c6_blank_title_rejected_witness :
    add ([] : List Event) "   " 1 2 60 "note" = .error StoreError.validationError
    ∧ ∀ evs', add ([] : List Event) "   " 1 2 60 "note" ≠ .ok evs' :=
  c6_blank_title_rejected [] "   " 1 2 60 "note" (by decide)

/-- C7: the day view equals the full sorted listing filtered to the chosen
date: it is an order-preserving subsequence of `events_df` and consists of
exactly the rows whose date is the chosen one. -/
theorem c7_day_view_is_filter (evs : List Event) (d : ℕ) :
    df_day evs d = (events_df evs).filter (fun e => e.date == d)
    ∧ List.Sublist (df_day evs d) (events_df evs)
    ∧ (df_day evs d).all (fun e => e.date == d) = true := by
  have hfil : df_day evs d = (events_df evs).filter (fun e => e.date == d) := by
    unfold df_day
    cases hemp : (events_df evs).isEmpty
    · simp [hemp]
    · rw [List.isEmpty_iff] at hemp
      simp [hemp]
  refine ⟨hfil, ?_, ?_⟩
  · rw [hfil]; exact List.filter_sublist _
  · rw [hfil]
    rw [List.all_eq_true]
    intro e he
    exact (List.mem_filter.mp he).2

/-- C2: under the sort-key invariant (which every reachable store
satisfies), a delete at a position inside [0, count-1] succeeds and the
resulting store is exactly the pre-call sorted listing with the row at that
position removed, the count dropping by exactly 1; a position outside the
range is rejected as the range error, the handler then being unreachable
and the store left untouched. -/
theorem c2_delete_at_position (evs : List Event) (hInv : Inv evs) (i : ℤ) :
    (0 ≤ i → i < (count evs : ℤ) →
      deleteAt evs i = .ok ((events_df evs).eraseIdx i.toNat)
      ∧ count ((events_df evs).eraseIdx i.toNat) + 1 = count evs)
    ∧ (¬(0 ≤ i ∧ i < (count evs : ℤ)) →
      deleteAt evs i = .error StoreError.rangeError) := by
  have hlen : (events_df evs).length = count evs := length_events_df evs
  constructor
  · intro h0 hlt
    have hcond : 0 ≤ i ∧ i < ((events_df evs).length : ℤ) := by
      refine ⟨h0, ?_⟩; rw [hlen]; exact hlt
    have hmap : ((events_df evs).eraseIdx i.toNat).map rebuildRow
        = (events_df evs).eraseIdx i.toNat := by
      have hid : ∀ x ∈ (events_df evs).eraseIdx i.toNat, rebuildRow x = x := by
        intro x hx
        have hx' : x ∈ evs :=
          (events_df_perm evs).subset ((List.eraseIdx_sublist _ _).subset hx)
        exact rebuildRow_eq_self (hInv x hx')
      rw [List.map_congr_left hid]
      exact List.map_id' _
    constructor
    · unfold deleteAt
      rw [if_pos hcond, hmap]
    · have hi : i.toNat < (events_df evs).length := by omega
      have hone := List.length_eraseIdx_add_one hi
      unfold count at hlen ⊢
      omega
  · intro hnot
    unfold deleteAt
    rw [if_neg]
    intro hcond
    exact hnot ⟨hcond.1, by rw [← hlen]; exact hcond.2⟩

theorem c2_delete_at_position_witness :
    deleteAt [⟨"a", 1, 5, 30, "x", (1, 5)⟩, ⟨"b", 2, 0, 60, "", (2, 0)⟩] 0
      = .ok ((events_df [⟨"a", 1, 5, 30, "x", (1, 5)⟩, ⟨"b", 2, 0, 60, "", (2, 0)⟩]).eraseIdx
          (0 : ℤ).toNat)
    ∧ deleteAt [⟨"a", 1, 5, 30, "x", (1, 5)⟩, ⟨"b", 2, 0, 60, "", (2, 0)⟩] 5
      = .error StoreError.rangeError :=
  ⟨((c2_delete_at_position _ (by decide) 0).1 (by decide) (by decide)).1,
   (c2_delete_at_position _ (by decide) 5).2 (by decide)⟩

/-- C9: every store reachable through the handlers keeps the sort-key
invariant: each stored event's `SortDT` is the datetime combining its
stored date and time fields, so the ordering key is recoverable from the
stored fields even after a delete rebuilds the collection from the
displayed view. -/
theorem c9_sortkey_invariant (evs : List Event) (h : Reachable evs) : Inv evs := by
  induction h with
  | init => intro e he; cases he
  | push evs title d t dur notes evs' hR hok ih =>
    intro e he
    unfold add at hok
    by_cases hcond : pyStrip title = ""
    · rw [if_pos hcond] at hok; exact absurd hok (by simp)
    · rw [if_neg hcond] at hok
      simp only [Except.ok.injEq] at hok
      subst hok
      unfold add_event at he
      rcases List.mem_append.mp he with h1 | h2
      · exact ih e h1
      · have : e = ⟨pyStrip title, d, t, dur, pyStrip notes, datetimeCombine d t⟩ := by
          simpa using h2
        subst this
        rfl
  | del evs i evs' hR hok ih =>
    intro e he
    obtain ⟨x, hx, rfl⟩ := deleteAt_ok_mem hok e he
    rfl
  | wipe evs hR ih =>
    intro e he
    cases he

theorem c9_sortkey_invariant_witness : Inv (add_event [] "Lab" 7 30 90 "room 2") :=
  c9_sortkey_invariant _ (Reachable.push [] "Lab" 7 30 90 "room 2" _ Reachable.init rfl)

/-- C10: every store reachable through the handlers keeps the trimming
invariant: no stored title or notes value carries leading or trailing
whitespace, since add stores both stripped and the delete rebuild copies
them unchanged. -/
theorem c10_trimmed_invariant (evs : List Event) (h : Reachable evs) : TrimmedInv evs := by
  induction h with
  | init => intro e he; cases he
  | push evs title d t dur notes evs' hR hok ih =>
    intro e he
    unfold add at hok
    by_cases hcond : pyStrip title = ""
    · rw [if_pos hcond] at hok; exact absurd hok (by simp)
    · rw [if_neg hcond] at hok
      simp only [Except.ok.injEq] at hok
      subst hok
      unfold add_event at he
      rcases List.mem_append.mp he with h1 | h2
      · exact ih e h1
      · have : e = ⟨pyStrip title, d, t, dur, pyStrip notes, datetimeCombine d t⟩ := by
          simpa using h2
        subst this
        exact ⟨pyStrip_noEdge title, pyStrip_noEdge notes⟩
  | del evs i evs' hR hok ih =>
    intro e he
    obtain ⟨x, hx, rfl⟩ := deleteAt_ok_mem hok e he
    exact ih x hx
  | wipe evs hR ih =>
    intro e he
    cases he

theorem c10_trimmed_invariant_witness :
    TrimmedInv (add_event [] " ML Lab " 2 3 60 " bring notebook ") :=
  c10_trimmed_invariant _
    (Reachable.push [] " ML Lab " 2 3 60 " bring notebook " _ Reachable.init rfl)

end StreamlitApp
